import Mathlib

/-!
Verification development for the map-data-viewer telemetry servers.

The definitions below are shallow embeddings of the JavaScript source:

* the timestamp correlator of oceanographic-server/server.js
  (queryHistoricalDataWithRange / queryHistoricalData, which share the
  same matching loop),
* the dynamic aggregation-window computation of the same file,
* the auto-downsampling table, the chunked trackline sender and the
  queryTrackline websocket handler of gps-server/server-influxdb.js,
* the JavaScript truthiness guards used when building the GPS index and
  when resolving a live ship position.

Times are modelled in integer milliseconds (JavaScript Date.getTime values),
numeric field values as rationals.
-/

namespace MapViewer

/-- a GPS index entry of the gpsData map: the millisecond timestamp that keys
the entry and the pivoted Seapath latitude/longitude. -/
structure Fix where
  time : Int
  lat : ℚ
  lon : ℚ
deriving DecidableEq

/-- a downsampled sensor row after the value guard: its _time in milliseconds
and its parsed numeric _value. -/
structure Sample where
  time : Int
  value : ℚ
deriving DecidableEq

/-- a correlated output point: the sensor reading tagged with the lat/lon of
the GPS fix it was matched to. -/
structure Point where
  time : Int
  value : ℚ
  lat : ℚ
  lon : ℚ
deriving DecidableEq

/-- the correlation tolerance: the loop in server.js starts its scan with
minDiff = 30000 milliseconds. -/
def TOLERANCE_MS : Nat := 30000

/-- absolute clock distance in milliseconds between a sensor timestamp and a
GPS timestamp, Math.abs(sensorTime - gpsTime). -/
def distMs (sensorTime gpsTime : Int) : Nat := (sensorTime - gpsTime).natAbs

/-- one iteration of the closest-fix scan: the accumulator carries
(minDiff, closestGps) and is replaced exactly when diff < minDiff. -/
def scanStep (t : Int) (acc : Nat × Option Fix) (f : Fix) : Nat × Option Fix :=
  if distMs t f.time < acc.1 then (distMs t f.time, some f) else acc

/-- the linear scan over all gpsData entries for the closest fix, starting
from minDiff = 30000 and closestGps = null. -/
def findClosestGps (fixes : List Fix) (t : Int) : Nat × Option Fix :=
  fixes.foldl (scanStep t) (TOLERANCE_MS, none)

/-- exact-timestamp lookup gpsData.get(timeKey); ISO-string keys of distinct
millisecond times are distinct, so key equality is timestamp equality. -/
def lookupExact (fixes : List Fix) (t : Int) : Option Fix :=
  fixes.find? (fun f => f.time == t)

/-- the fix matched to one sensor timestamp: the exact-timestamp map hit if
present, otherwise the result of the 30-second scan. -/
def matchFix (fixes : List Fix) (t : Int) : Option Fix :=
  match lookupExact fixes t with
  | some g => some g
  | none => (findClosestGps fixes t).2

/-- the point pushed for one sensor row: present exactly when a GPS fix was
resolved, and carrying the row's own timestamp and value. -/
def correlatePoint (fixes : List Fix) (s : Sample) : Option Point :=
  (matchFix fixes s.time).map (fun g => ⟨s.time, s.value, g.lat, g.lon⟩)

/-- the correlation loop over the sensor rows, in their arrival order. -/
def correlate (values : List Sample) (fixes : List Fix) : List Point :=
  values.filterMap (correlatePoint fixes)

/-- a JavaScript field value as far as the truthiness guards can distinguish
it: absent (undefined), NaN, or a finite number. -/
inductive JSVal where
  | undef : JSVal
  | nan : JSVal
  | num : ℚ → JSVal
deriving DecidableEq

/-- JavaScript truthiness of such a value: undefined, NaN and 0 are falsy,
every other number is truthy. -/
def JSVal.truthy : JSVal → Bool
  | .num q => decide (q ≠ 0)
  | _ => false

/-- numeric content of a field value (only used once its guard passed). -/
def JSVal.toRat : JSVal → ℚ
  | .num q => q
  | _ => 0

/-- a pivoted GPS row as iterated from the position query:
Seapath_Latitude, Seapath_Longitude and the _time key (none when _time is
missing or empty). -/
structure GpsRow where
  lat : JSVal
  lon : JSVal
  time : Option Int
deriving DecidableEq

/-- the gpsData index built by the guarded loop of
queryHistoricalDataWithRange: an entry is set only when
row.Seapath_Latitude, row.Seapath_Longitude and row._time are all truthy. -/
def buildGpsIndex (rows : List GpsRow) : List Fix :=
  rows.filterMap (fun r =>
    match r.time with
    | some t =>
      if r.lat.truthy && r.lon.truthy then some ⟨t, r.lat.toRat, r.lon.toRat⟩ else none
    | none => none)

/-- the accumulated field set of one queryShipGPS flux result, as collected by
the row callback of gps-server/server-influxdb.js. -/
structure ShipQueryResult where
  lat : JSVal
  lon : JSVal
  heading : JSVal
  course : JSVal
  speed : JSVal
  satellites : JSVal
  quality : JSVal
  timestamp : Int
deriving DecidableEq

/-- a live ship position message; the optional fields carry value-or-null. -/
structure ShipPosition where
  timestamp : Int
  lat : ℚ
  lon : ℚ
  heading : Option ℚ
  course : Option ℚ
  speed : Option ℚ
  satellites : Option ℚ
  quality : Option ℚ
deriving DecidableEq

/-- the value-or-null defaulting used for the optional fields (v || null). -/
def orNull (v : JSVal) : Option ℚ := if v.truthy then some v.toRat else none

/-- the completion handler of queryShipGPS: a position message is resolved
only when Seapath_Latitude and Seapath_Longitude are both truthy; otherwise
the promise resolves null and nothing is broadcast. -/
def shipPositionOf (r : ShipQueryResult) : Option ShipPosition :=
  if r.lat.truthy && r.lon.truthy then
    some ⟨r.timestamp, r.lat.toRat, r.lon.toRat, orNull r.heading, orNull r.course,
          orNull r.speed, orNull r.satellites, orNull r.quality⟩
  else none

/-- the two vehicles a trackline request can name; the handler compares the
request string against the ship literal and treats anything else as the ROV
feed. -/
inductive Vehicle where
  | ship : Vehicle
  | rov : Vehicle
deriving DecidableEq

/-- one GPS trackline point produced by queryHistoricalTrackline. -/
structure TrackPoint where
  time : Int
  lat : ℚ
  lon : ℚ
  heading : Option ℚ
deriving DecidableEq

/-- the messages the ship websocket handler can send while serving one
queryTrackline request. -/
inductive Msg where
  | tracklineData (vehicle : Vehicle) (startTime endTime : Int) (chunk : Nat)
      (totalChunks : Nat) (points : List TrackPoint) : Msg
  | tracklineComplete (vehicle : Vehicle) (totalPoints : Nat) : Msg
  | errorMsg (message : String) : Msg
deriving DecidableEq

/-- the chunk size constant of sendTracklineInChunks. -/
def CHUNK_SIZE : Nat := 1000

/-- sendTracklineInChunks: slice the points into CHUNK_SIZE slices, send each
tagged with (i + 1, totalChunks) where totalChunks = Math.ceil of
points.length / CHUNK_SIZE, then send one tracklineComplete carrying the
total point count. -/
def sendTracklineInChunks (vehicle : Vehicle) (points : List TrackPoint)
    (startTime endTime : Int) : List Msg :=
  let totalChunks := (points.length + CHUNK_SIZE - 1) / CHUNK_SIZE
  ((List.range totalChunks).map (fun i =>
    Msg.tracklineData vehicle startTime endTime (i + 1) totalChunks
      ((points.drop (i * CHUNK_SIZE)).take CHUNK_SIZE)))
    ++ [Msg.tracklineComplete vehicle points.length]

/-- the per-vehicle body of the queryTrackline loop: chunked sending when the
query returned points, otherwise a bare tracklineComplete with totalPoints
of 0. -/
def handleVehicle (vehicle : Vehicle) (startTime endTime : Int)
    (pts : List TrackPoint) : List Msg :=
  if 0 < pts.length then sendTracklineInChunks vehicle pts startTime endTime
  else [Msg.tracklineComplete vehicle 0]

/-- the queryTrackline vehicle loop as run under the handler's try/catch: a
rejected query throws, the catch sends a single error message with the
error's text, and the handler ends there, so the vehicles after the failing
one are never processed. -/
def processVehicles (query : Vehicle → Except String (List TrackPoint))
    (startTime endTime : Int) : List Vehicle → List Msg
  | [] => []
  | v :: rest =>
    match query v with
    | .error e => [Msg.errorMsg e]
    | .ok pts =>
      handleVehicle v startTime endTime pts ++ processVehicles query startTime endTime rest

/-- the target point count of the dynamic window computation. -/
def targetPoints : Nat := 3000

/-- windowMs = Math.max(1000, Math.floor(timeDiffMs / targetPoints)); the
span of a valid range is nonnegative, so Math.floor is truncating natural
division. -/
def windowMsOf (timeDiffMs : Nat) : Nat := max 1000 (timeDiffMs / targetPoints)

/-- the flux duration rounding of the window, expressed in milliseconds:
below one minute Math.ceil to whole seconds, below one hour to whole
minutes, otherwise to whole hours. -/
def windowPeriodMs (windowMs : Nat) : Nat :=
  if windowMs < 60000 then 1000 * ((windowMs + 999) / 1000)
  else if windowMs < 3600000 then 60000 * ((windowMs + 59999) / 60000)
  else 3600000 * ((windowMs + 3599999) / 3600000)

/-- Modelled from the spec: the number of aggregation buckets an
aggregateWindow of the given width produces over a span, the ceiling of
span / width. The windowing itself happens inside the external time-series
store and is not part of src/. -/
def bucketCount (spanMs widthMs : Nat) : Nat := (spanMs + widthMs - 1) / widthMs

/-- the specification's window formula, stated from its own words for
comparison with windowMsOf: max(1 s, ceiling of span / targetPointCount). -/
def specWindowMs (timeDiffMs : Nat) : Nat :=
  max 1000 ((timeDiffMs + (targetPoints - 1)) / targetPoints)

/-- the auto downsample table of queryHistoricalTrackline, durations compared
in milliseconds: over 7 days one minute, over one day 10 seconds, over one
hour 5 seconds, otherwise full one-second resolution. -/
def autoIntervalMs (startMs endMs : Int) : Nat :=
  let d := endMs - startMs
  if 168 * 3600000 < d then 60000
  else if 24 * 3600000 < d then 10000
  else if 3600000 < d then 5000
  else 1000

/-! Helper lemmas about the closest-fix scan. -/

/-- invariant of the closest-fix fold: either no candidate ever beat the
running minimum and the accumulator is unchanged, or the fold returns the
first fix attaining the minimal distance, which is strictly below the
initial minimum and below every earlier candidate. -/
theorem foldl_scanStep_spec (t : Int) (l : List Fix) :
    ∀ (m : Nat) (o : Option Fix),
      (l.foldl (scanStep t) (m, o) = (m, o) ∧ ∀ f ∈ l, m ≤ distMs t f.time) ∨
      (∃ f l1 l2, l = l1 ++ f :: l2 ∧
        l.foldl (scanStep t) (m, o) = (distMs t f.time, some f) ∧
        distMs t f.time < m ∧
        (∀ g ∈ l, distMs t f.time ≤ distMs t g.time) ∧
        (∀ g ∈ l1, distMs t f.time < distMs t g.time)) := by
  induction l with
  | nil =>
    intro m o
    exact Or.inl ⟨rfl, by simp⟩
  | cons x l ih =>
    intro m o
    by_cases hx : distMs t x.time < m
    · have hstep : List.foldl (scanStep t) (m, o) (x :: l)
          = List.foldl (scanStep t) (distMs t x.time, some x) l := by
        simp [List.foldl_cons, scanStep, hx]
      rcases ih (distMs t x.time) (some x) with
        ⟨heq, hall⟩ | ⟨f, l1, l2, hdec, heq, hlt, hmin, hbefore⟩
      · refine Or.inr ⟨x, [], l, by simp, by rw [hstep, heq], hx, ?_, by simp⟩
        intro g hg
        rcases List.mem_cons.mp hg with rfl | hg
        · exact le_refl _
        · exact hall g hg
      · refine Or.inr ⟨f, x :: l1, l2, by simp [hdec], by rw [hstep, heq],
          lt_trans hlt hx, ?_, ?_⟩
        · intro g hg
          rcases List.mem_cons.mp hg with rfl | hg
          · exact le_of_lt hlt
          · exact hmin g hg
        · intro g hg
          rcases List.mem_cons.mp hg with rfl | hg
          · exact hlt
          · exact hbefore g hg
    · have hstep : List.foldl (scanStep t) (m, o) (x :: l)
          = List.foldl (scanStep t) (m, o) l := by
        simp [List.foldl_cons, scanStep, hx]
      rcases ih m o with ⟨heq, hall⟩ | ⟨f, l1, l2, hdec, heq, hlt, hmin, hbefore⟩
      · refine Or.inl ⟨by rw [hstep, heq], ?_⟩
        intro g hg
        rcases List.mem_cons.mp hg with rfl | hg
        · exact Nat.le_of_not_lt hx
        · exact hall g hg
      · refine Or.inr ⟨f, x :: l1, l2, by simp [hdec], by rw [hstep, heq], hlt, ?_, ?_⟩
        · intro g hg
          rcases List.mem_cons.mp hg with rfl | hg
          · exact le_trans (le_of_lt hlt) (Nat.le_of_not_lt hx)
          · exact hmin g hg
        · intro g hg
          rcases List.mem_cons.mp hg with rfl | hg
          · exact lt_of_lt_of_le hlt (Nat.le_of_not_lt hx)
          · exact hbefore g hg

/-- when the scan resolves no fix, every fix of the index is at distance of
at least the tolerance. -/
theorem findClosestGps_eq_none {fixes : List Fix} {t : Int}
    (h : (findClosestGps fixes t).2 = none) :
    ∀ f ∈ fixes, TOLERANCE_MS ≤ distMs t f.time := by
  rcases foldl_scanStep_spec t fixes TOLERANCE_MS none with
    ⟨heq, hall⟩ | ⟨f, l1, l2, _, heq, _, _, _⟩
  · exact hall
  · exfalso
    unfold findClosestGps at h
    rw [heq] at h
    simp at h

/-- when the scan resolves a fix, it lies in the index, strictly within
tolerance, minimizes the distance over the whole index, and every fix
placed before it in the index is strictly farther. -/
theorem findClosestGps_eq_some {fixes : List Fix} {t : Int} {f : Fix}
    (h : (findClosestGps fixes t).2 = some f) :
    f ∈ fixes ∧ distMs t f.time < TOLERANCE_MS ∧
      (∀ g ∈ fixes, distMs t f.time ≤ distMs t g.time) ∧
      ∃ l1 l2, fixes = l1 ++ f :: l2 ∧ ∀ g ∈ l1, distMs t f.time < distMs t g.time := by
  rcases foldl_scanStep_spec t fixes TOLERANCE_MS none with
    ⟨heq, _⟩ | ⟨f', l1, l2, hdec, heq, hlt, hmin, hbefore⟩
  · exfalso
    unfold findClosestGps at h
    rw [heq] at h
    simp at h
  · unfold findClosestGps at h
    rw [heq] at h
    simp only [Option.some.injEq] at h
    subst h
    refine ⟨?_, hlt, hmin, l1, l2, hdec, hbefore⟩
    rw [hdec]
    exact List.mem_append.mpr (Or.inr (List.mem_cons_self _ _))

/-- C1 counterexample: a sample whose nearest fix is at distance exactly
equal to the 30-second tolerance is dropped, not accepted: with a single fix
30000 ms away and no exact match, the scan resolves nothing and the sample
contributes no point, although the minimal distance equals the tolerance. -/
theorem tolerance_boundary_cex :
    lookupExact [⟨30000, 1, 2⟩] 0 = none ∧
    distMs 0 30000 = TOLERANCE_MS ∧
    matchFix [⟨30000, 1, 2⟩] 0 = none ∧
    correlate [⟨0, 5⟩] [⟨30000, 1, 2⟩] = [] := by
  refine ⟨rfl, rfl, rfl, rfl⟩

/-- C1 amended: for a sample with no exact-timestamp hit, a point is emitted
exactly when some fix of the index lies at distance strictly below the
30-second tolerance, and the matched fix then minimizes the distance over
the whole index; a nearest fix at distance exactly the tolerance is
rejected and the sample is dropped. -/
theorem correlator_strict_tolerance (fixes : List Fix) (s : Sample)
    (hexact : lookupExact fixes s.time = none) :
    ((correlatePoint fixes s).isSome = true ↔
      ∃ f ∈ fixes, distMs s.time f.time < TOLERANCE_MS) ∧
    (∀ f, matchFix fixes s.time = some f →
      f ∈ fixes ∧ distMs s.time f.time < TOLERANCE_MS ∧
      ∀ g ∈ fixes, distMs s.time f.time ≤ distMs s.time g.time) := by
  have hmatch : matchFix fixes s.time = (findClosestGps fixes s.time).2 := by
    unfold matchFix
    rw [hexact]
  constructor
  · constructor
    · intro hsome
      unfold correlatePoint at hsome
      rw [hmatch] at hsome
      cases hscan : (findClosestGps fixes s.time).2 with
      | none => rw [hscan] at hsome; simp at hsome
      | some f =>
        rcases findClosestGps_eq_some hscan with ⟨hf, hlt, _, _⟩
        exact ⟨f, hf, hlt⟩
    · intro ⟨f, hf, hlt⟩
      unfold correlatePoint
      rw [hmatch]
      cases hscan : (findClosestGps fixes s.time).2 with
      | none =>
        exact absurd hlt (Nat.not_lt.mpr (findClosestGps_eq_none hscan f hf))
      | some g => simp
  · intro f hf
    rw [hmatch] at hf
    rcases findClosestGps_eq_some hf with ⟨hmem, hlt, hmin, _⟩
    exact ⟨hmem, hlt, hmin⟩

/-- C1 witness: the amended tolerance characterization instantiated at a
sample at time 0 and a single fix 100 ms away. -/
theorem correlator_strict_tolerance_witness :
    lookupExact [⟨100, 1, 2⟩] (0 : Int) = none ∧
    (((correlatePoint [⟨100, 1, 2⟩] ⟨0, 5⟩).isSome = true ↔
      ∃ f ∈ [Fix.mk 100 1 2], distMs 0 f.time < TOLERANCE_MS) ∧
    (∀ f, matchFix [⟨100, 1, 2⟩] 0 = some f →
      f ∈ [Fix.mk 100 1 2] ∧ distMs 0 f.time < TOLERANCE_MS ∧
      ∀ g ∈ [Fix.mk 100 1 2], distMs 0 f.time ≤ distMs 0 g.time)) :=
  ⟨rfl, correlator_strict_tolerance [⟨100, 1, 2⟩] ⟨0, 5⟩ rfl⟩

/-- C8: with the fix index in time order (strictly increasing timestamps, as
produced by the windowed position query), the point emitted for a sample is
built from a fix that is no later than any other fix at the same distance:
the strict diff < minDiff comparison never lets a later equidistant
candidate replace an earlier one. -/
theorem tie_break_earlier (fixes : List Fix) (s : Sample)
    (hsorted : fixes.Pairwise (fun a b => a.time < b.time)) (p : Point)
    (hp : correlatePoint fixes s = some p) :
    ∃ f ∈ fixes, matchFix fixes s.time = some f ∧ p.lat = f.lat ∧ p.lon = f.lon ∧
      ∀ g ∈ fixes, distMs s.time g.time = distMs s.time f.time → f.time ≤ g.time := by
  unfold correlatePoint at hp
  cases hm : matchFix fixes s.time with
  | none => rw [hm] at hp; simp at hp
  | some f =>
    rw [hm] at hp
    simp only [Option.map_some', Option.some.injEq] at hp
    subst hp
    unfold matchFix at hm
    cases hex : lookupExact fixes s.time with
    | some g =>
      rw [hex] at hm
      simp only [Option.some.injEq] at hm
      have hgmem : f ∈ fixes := hm ▸ List.mem_of_find?_eq_some hex
      have hftime : f.time = s.time := by
        have h2 := List.find?_some hex
        simp only [beq_iff_eq] at h2
        rw [← hm]
        exact h2
      refine ⟨f, hgmem, rfl, rfl, rfl, ?_⟩
      intro g2 hg2 hdist
      have hfd : distMs s.time f.time = 0 := by
        unfold distMs
        rw [hftime]
        simp
      have hzero : distMs s.time g2.time = 0 := by rw [hdist, hfd]
      have hg2time : g2.time = s.time := by
        unfold distMs at hzero
        omega
      rw [hftime, hg2time]
    | none =>
      rw [hex] at hm
      rcases findClosestGps_eq_some hm with ⟨hmem, _, _, l1, l2, hdec, hbefore⟩
      refine ⟨f, hmem, rfl, rfl, rfl, ?_⟩
      intro g hg hdist
      rw [hdec] at hg
      rcases List.mem_append.mp hg with hg1 | hg2
      · exact absurd hdist (by
          have := hbefore g hg1
          omega)
      · rcases List.mem_cons.mp hg2 with rfl | hg2
        · exact le_refl _
        · have hpw := hsorted
          rw [hdec] at hpw
          have hfl2 := (List.pairwise_append.mp hpw).2.1
          have hlt2 := (List.pairwise_cons.mp hfl2).1 g hg2
          exact le_of_lt hlt2

/-- C8 witness: two fixes equidistant from a sample at time 5; the earlier
fix at time 0 is the one whose coordinates appear in the emitted point. -/
theorem tie_break_earlier_witness :
    ([Fix.mk 0 1 1, Fix.mk 10 2 2].Pairwise (fun a b => a.time < b.time)) ∧
    ∃ f ∈ [Fix.mk 0 1 1, Fix.mk 10 2 2],
      matchFix [Fix.mk 0 1 1, Fix.mk 10 2 2] (5 : Int) = some f ∧
      (Point.mk 5 7 1 1).lat = f.lat ∧ (Point.mk 5 7 1 1).lon = f.lon ∧
      ∀ g ∈ [Fix.mk 0 1 1, Fix.mk 10 2 2],
        distMs 5 g.time = distMs 5 f.time → f.time ≤ g.time :=
  ⟨by decide, tie_break_earlier [⟨0, 1, 1⟩, ⟨10, 2, 2⟩] ⟨5, 7⟩ (by decide) ⟨5, 7, 1, 1⟩ rfl⟩

/-- a point emitted for a sensor row carries that row's own timestamp and
value, on both the exact-match and the scan path. -/
theorem correlatePoint_time_value {fixes : List Fix} {s : Sample} {p : Point}
    (h : correlatePoint fixes s = some p) : p.time = s.time ∧ p.value = s.value := by
  unfold correlatePoint at h
  cases hm : matchFix fixes s.time with
  | none => rw [hm] at h; simp at h
  | some g =>
    rw [hm] at h
    simp only [Option.map_some', Option.some.injEq] at h
    subst h
    exact ⟨rfl, rfl⟩

/-- a filterMap whose hits agree with a per-element observation yields a
sublist of the mapped input. -/
theorem filterMap_graph_sublist {α β γ : Type} (f : α → Option β) (g : β → γ)
    (h : α → γ) (hpres : ∀ a b, f a = some b → g b = h a) :
    ∀ l : List α, ((l.filterMap f).map g).Sublist (l.map h) := by
  intro l
  induction l with
  | nil => simp
  | cons a l ih =>
    cases hfa : f a with
    | none =>
      rw [List.filterMap_cons_none hfa, List.map_cons]
      exact ih.cons _
    | some b =>
      rw [List.filterMap_cons_some hfa, List.map_cons, List.map_cons,
        hpres a b hfa]
      exact ih.cons₂ _

/-- C9: the correlator output is an order-preserving subsequence of its input
sample sequence: the (time, value) projections form a sublist of the
input's, the output is never longer than the input, and time-sortedness of
the input values carries over to the output. -/
theorem correlate_order_preserving (values : List Sample) (fixes : List Fix) :
    ((correlate values fixes).map (fun p => (p.time, p.value))).Sublist
      (values.map (fun s => (s.time, s.value))) ∧
    (correlate values fixes).length ≤ values.length ∧
    ((values.map Sample.time).Pairwise (fun a b => a ≤ b) →
      ((correlate values fixes).map Point.time).Pairwise (fun a b => a ≤ b)) := by
  have hsub : ((correlate values fixes).map (fun p => (p.time, p.value))).Sublist
      (values.map (fun s => (s.time, s.value))) := by
    unfold correlate
    exact filterMap_graph_sublist (correlatePoint fixes)
      (fun p => (p.time, p.value)) (fun s => (s.time, s.value))
      (fun a b hb => by
        rcases correlatePoint_time_value hb with ⟨ht, hv⟩
        simp only []
        rw [ht, hv]) values
  have htime : ((correlate values fixes).map Point.time).Sublist
      (values.map Sample.time) := by
    unfold correlate
    exact filterMap_graph_sublist (correlatePoint fixes) Point.time Sample.time
      (fun a b hb => (correlatePoint_time_value hb).1) values
  refine ⟨hsub, ?_, ?_⟩
  · have := hsub.length_le
    simpa using this
  · intro hpw
    exact hpw.sublist htime

/-- C9 witness: a sorted two-sample input and one fix; the output timestamps
stay sorted. -/
theorem correlate_order_preserving_witness :
    ((correlate [⟨0, 1⟩, ⟨5, 2⟩] [⟨1, 3, 4⟩]).map Point.time).Pairwise
      (fun a b => a ≤ b) :=
  (correlate_order_preserving [⟨0, 1⟩, ⟨5, 2⟩] [⟨1, 3, 4⟩]).2.2 (by decide)

/-- C10: a coordinate of exactly 0, a NaN and an undefined field are all
falsy, and any GPS row with a falsy latitude or longitude is silently
dropped: it contributes no entry to the historical index (so it can never
geotag any sensor sample) and, on the live path, a query result with a
falsy coordinate resolves to no position message at all. -/
theorem falsy_coordinate_discarded (r : GpsRow)
    (hfalsy : r.lat.truthy = false ∨ r.lon.truthy = false) :
    (JSVal.truthy (.num 0) = false ∧ JSVal.truthy .nan = false ∧
      JSVal.truthy .undef = false) ∧
    (∀ l1 l2 : List GpsRow, buildGpsIndex (l1 ++ r :: l2) = buildGpsIndex (l1 ++ l2)) ∧
    (∀ values (l1 l2 : List GpsRow),
      correlate values (buildGpsIndex (l1 ++ r :: l2))
        = correlate values (buildGpsIndex (l1 ++ l2))) ∧
    (∀ q : ShipQueryResult, (q.lat.truthy = false ∨ q.lon.truthy = false) →
      shipPositionOf q = none) := by
  have hdrop : ∀ l1 l2 : List GpsRow,
      buildGpsIndex (l1 ++ r :: l2) = buildGpsIndex (l1 ++ l2) := by
    intro l1 l2
    unfold buildGpsIndex
    rw [List.filterMap_append, List.filterMap_append, List.filterMap_cons]
    have hguard : (r.lat.truthy && r.lon.truthy) = false := by
      rcases hfalsy with h | h <;> simp [h]
    cases ht : r.time with
    | none => simp
    | some t => simp [hguard]
  refine ⟨⟨rfl, rfl, rfl⟩, hdrop, ?_, ?_⟩
  · intro values l1 l2
    rw [hdrop l1 l2]
  · intro q hq
    unfold shipPositionOf
    have hguard : (q.lat.truthy && q.lon.truthy) = false := by
      rcases hq with h | h <;> simp [h]
    rw [hguard]
    simp

/-- C10 witness: a fix on the equator (latitude exactly 0) is dropped from
the index, and a live query result with latitude 0 resolves no message. -/
theorem falsy_coordinate_discarded_witness :
    buildGpsIndex ([] ++ GpsRow.mk (.num 0) (.num 1) (some 0) :: [⟨.num 2, .num 3, some 5⟩])
        = buildGpsIndex ([] ++ [⟨.num 2, .num 3, some 5⟩]) ∧
    shipPositionOf ⟨.num 0, .num 1, .undef, .undef, .undef, .undef, .undef, 0⟩ = none := by
  refine ⟨(falsy_coordinate_discarded ⟨.num 0, .num 1, some 0⟩
    (Or.inl (by decide))).2.1 [] [⟨.num 2, .num 3, some 5⟩], ?_⟩
  exact (falsy_coordinate_discarded ⟨.num 0, .num 1, some 0⟩
    (Or.inl (by decide))).2.2.2 _ (Or.inl (by decide))

/-- the point payload of a message, present for chunk messages only. -/
def msgPoints : Msg → Option (List TrackPoint)
  | .tracklineData _ _ _ _ _ pts => some pts
  | _ => none

/-- the chunk index tag of a message, present for chunk messages only. -/
def msgChunkIdx : Msg → Option Nat
  | .tracklineData _ _ _ c _ _ => some c
  | _ => none

/-- the totalChunks tag of a message, present for chunk messages only. -/
def msgTotal : Msg → Option Nat
  | .tracklineData _ _ _ _ tot _ => some tot
  | _ => none

/-- the point payloads of the chunk messages of a message list, in send
order. -/
def chunkPayloads (msgs : List Msg) : List (List TrackPoint) :=
  msgs.filterMap msgPoints

/-- the chunk index tags of the chunk messages, in send order. -/
def chunkIndices (msgs : List Msg) : List Nat :=
  msgs.filterMap msgChunkIdx

/-- the totalChunks tags of the chunk messages, in send order. -/
def chunkTotals (msgs : List Msg) : List Nat :=
  msgs.filterMap msgTotal

/-- whether a message is a tracklineComplete. -/
def isCompleteMsg : Msg → Bool
  | .tracklineComplete _ _ => true
  | _ => false

/-- a filterMap over a map that always hits is the map of the extracted
observation. -/
theorem filterMap_map_some {α β γ : Type} (g : α → β) (f : β → Option γ)
    (h : α → γ) (hf : ∀ a, f (g a) = some (h a)) :
    ∀ l : List α, (l.map g).filterMap f = l.map h := by
  intro l
  induction l with
  | nil => rfl
  | cons a l ih =>
    rw [List.map_cons, List.filterMap_cons_some (hf a), List.map_cons, ih]

/-- consecutive fixed-width slices taken at successive drop offsets
reassemble the original list as soon as the slice count covers its
length. -/
theorem flatten_range_chunks {α : Type} (c : Nat) :
    ∀ (k : Nat) (l : List α), l.length ≤ k * c →
      ((List.range k).map (fun i => (l.drop (i * c)).take c)).flatten = l := by
  intro k
  induction k with
  | zero =>
    intro l hl
    simp at hl
    simp [hl]
  | succ k ih =>
    intro l hl
    rw [List.range_succ_eq_map, List.map_cons, List.map_map, List.flatten_cons]
    have hhead : (l.drop (0 * c)).take c = l.take c := by simp
    have htail : ∀ i : Nat,
        ((fun i => (l.drop (i * c)).take c) ∘ Nat.succ) i
          = ((l.drop c).drop (i * c)).take c := by
      intro i
      simp only [Function.comp_apply]
      rw [List.drop_drop, Nat.succ_mul, Nat.add_comm (i * c) c]
    rw [hhead]
    have hmap : (List.range k).map ((fun i => (l.drop (i * c)).take c) ∘ Nat.succ)
        = (List.range k).map (fun i => ((l.drop c).drop (i * c)).take c) :=
      List.map_congr_left (fun i _ => htail i)
    rw [hmap, ih (l.drop c) (by
      rw [List.length_drop]
      have hs : (k + 1) * c = k * c + c := Nat.succ_mul k c
      omega)]
    exact List.take_append_drop c l

/-- C4: the chunked sender emits ceiling of n over 1000 chunk messages; the
i-th (1-based) chunk carries the slice from (i-1)*1000 to i*1000; the
chunk indices are exactly 1, 2, ... in order; every chunk is tagged with
the one totalChunks value; the payloads concatenate back to the input; and
an input of 12500 points yields 13 chunks whose last has 500 points. -/
theorem chunking_law (v : Vehicle) (st en : Int) (points : List TrackPoint) :
    chunkPayloads (sendTracklineInChunks v points st en)
        = (List.range ((points.length + CHUNK_SIZE - 1) / CHUNK_SIZE)).map
            (fun i => (points.drop (i * CHUNK_SIZE)).take CHUNK_SIZE) ∧
    (chunkPayloads (sendTracklineInChunks v points st en)).length
        = (points.length + CHUNK_SIZE - 1) / CHUNK_SIZE ∧
    chunkIndices (sendTracklineInChunks v points st en)
        = (List.range ((points.length + CHUNK_SIZE - 1) / CHUNK_SIZE)).map
            (fun i => i + 1) ∧
    chunkTotals (sendTracklineInChunks v points st en)
        = List.replicate ((points.length + CHUNK_SIZE - 1) / CHUNK_SIZE)
            ((points.length + CHUNK_SIZE - 1) / CHUNK_SIZE) ∧
    (chunkPayloads (sendTracklineInChunks v points st en)).flatten = points ∧
    (points.length = 12500 →
      (chunkPayloads (sendTracklineInChunks v points st en)).length = 13 ∧
      ((chunkPayloads (sendTracklineInChunks v points st en)).getLast?).map
          List.length = some 500) := by
  have hpay : chunkPayloads (sendTracklineInChunks v points st en)
      = (List.range ((points.length + CHUNK_SIZE - 1) / CHUNK_SIZE)).map
          (fun i => (points.drop (i * CHUNK_SIZE)).take CHUNK_SIZE) := by
    unfold chunkPayloads sendTracklineInChunks
    rw [List.filterMap_append]
    simp only [msgPoints, List.filterMap_cons, List.filterMap_nil, List.append_nil]
    refine filterMap_map_some _ _ _ ?_ _
    intro a
    rfl
  have hidx : chunkIndices (sendTracklineInChunks v points st en)
      = (List.range ((points.length + CHUNK_SIZE - 1) / CHUNK_SIZE)).map
          (fun i => i + 1) := by
    unfold chunkIndices sendTracklineInChunks
    rw [List.filterMap_append]
    simp only [msgChunkIdx, List.filterMap_cons, List.filterMap_nil, List.append_nil]
    refine filterMap_map_some _ _ _ ?_ _
    intro a
    rfl
  have htot : chunkTotals (sendTracklineInChunks v points st en)
      = List.replicate ((points.length + CHUNK_SIZE - 1) / CHUNK_SIZE)
          ((points.length + CHUNK_SIZE - 1) / CHUNK_SIZE) := by
    unfold chunkTotals sendTracklineInChunks
    rw [List.filterMap_append]
    simp only [msgTotal, List.filterMap_cons, List.filterMap_nil, List.append_nil]
    have h1 := filterMap_map_some
      (fun i => Msg.tracklineData v st en (i + 1)
        ((points.length + CHUNK_SIZE - 1) / CHUNK_SIZE)
        ((points.drop (i * CHUNK_SIZE)).take CHUNK_SIZE))
      msgTotal (fun _ => (points.length + CHUNK_SIZE - 1) / CHUNK_SIZE)
      (fun a => rfl) (List.range ((points.length + CHUNK_SIZE - 1) / CHUNK_SIZE))
    rw [h1, List.map_const', List.length_range]
  have hflat : (chunkPayloads (sendTracklineInChunks v points st en)).flatten
      = points := by
    rw [hpay]
    refine flatten_range_chunks CHUNK_SIZE _ points ?_
    have h1000 : CHUNK_SIZE = 1000 := rfl
    rw [h1000]
    omega
  refine ⟨hpay, by rw [hpay]; simp, hidx, htot, hflat, ?_⟩
  intro h125
  have htotal : (points.length + CHUNK_SIZE - 1) / CHUNK_SIZE = 13 := by
    rw [h125]
    rfl
  constructor
  · rw [hpay, htotal]
    simp
  · rw [hpay, htotal]
    have hrange : List.range 13 = List.range 12 ++ [12] := rfl
    rw [hrange, List.map_append, List.map_singleton, List.getLast?_concat]
    simp only [Option.map_some']
    rw [List.length_take, List.length_drop, h125]
    rfl

/-- C4 witness: the 12500-point consequence instantiated at a concrete
replicate input: 13 chunks and a trailing chunk of 500 points. -/
theorem chunking_law_witness :
    (chunkPayloads (sendTracklineInChunks Vehicle.ship
        (List.replicate 12500 ⟨0, 0, 0, none⟩) 0 1)).length = 13 ∧
    ((chunkPayloads (sendTracklineInChunks Vehicle.ship
        (List.replicate 12500 ⟨0, 0, 0, none⟩) 0 1)).getLast?).map
        List.length = some 500 :=
  (chunking_law Vehicle.ship 0 1 (List.replicate 12500 ⟨0, 0, 0, none⟩)).2.2.2.2.2
    (List.length_replicate 12500 _)

/-- C5: for a target whose query succeeded, the per-target message block
contains exactly one tracklineComplete, it carries the total point count,
it is the last message of the block (after every chunk), and an empty
result still yields it: zero chunk messages followed by a completion with
totalPoints 0, distinguishing a valid empty result from no response. -/
theorem completion_always_sent (v : Vehicle) (st en : Int) (pts : List TrackPoint) :
    (handleVehicle v st en pts).filter isCompleteMsg
        = [Msg.tracklineComplete v pts.length] ∧
    (handleVehicle v st en pts).getLast? = some (Msg.tracklineComplete v pts.length) ∧
    (pts = [] →
      handleVehicle v st en pts = [Msg.tracklineComplete v 0] ∧
      chunkPayloads (handleVehicle v st en pts) = []) := by
  by_cases hlen : 0 < pts.length
  · have hblock : handleVehicle v st en pts = sendTracklineInChunks v pts st en := by
      unfold handleVehicle
      rw [if_pos hlen]
    have hchunks : ((List.range ((pts.length + CHUNK_SIZE - 1) / CHUNK_SIZE)).map
        (fun i => Msg.tracklineData v st en (i + 1)
          ((pts.length + CHUNK_SIZE - 1) / CHUNK_SIZE)
          ((pts.drop (i * CHUNK_SIZE)).take CHUNK_SIZE))).filter isCompleteMsg = [] := by
      rw [List.filter_eq_nil]
      intro m hm
      rcases List.mem_map.mp hm with ⟨i, _, hmi⟩
      rw [← hmi]
      simp [isCompleteMsg]
    refine ⟨?_, ?_, ?_⟩
    · rw [hblock]
      unfold sendTracklineInChunks
      rw [List.filter_append, hchunks, List.nil_append]
      rfl
    · rw [hblock]
      unfold sendTracklineInChunks
      exact List.getLast?_concat _
    · intro hnil
      rw [hnil] at hlen
      simp at hlen
  · have hnil : pts = [] := List.length_eq_zero.mp (Nat.eq_zero_of_not_pos hlen)
    subst hnil
    exact ⟨rfl, rfl, fun _ => ⟨rfl, rfl⟩⟩

/-- C5 witness: the empty result still completes: no chunk message, one
tracklineComplete with totalPoints of 0. -/
theorem completion_always_sent_witness :
    handleVehicle Vehicle.ship 0 1 [] = [Msg.tracklineComplete Vehicle.ship 0] ∧
    chunkPayloads (handleVehicle Vehicle.ship 0 1 []) = [] :=
  (completion_always_sent Vehicle.ship 0 1 []).2.2 rfl

/-- C2 counterexample: a queryTrackline request whose range has end equal to
start is not rejected: no error message is produced, the query runs (here
returning the empty series an empty range yields), and a completion
message with totalPoints 0 is sent, although the claim says no completion
message is ever sent for such a request. -/
theorem no_range_validation_cex :
    (1000 : Int) ≤ 1000 ∧
    processVehicles (fun _ => Except.ok []) 1000 1000 [Vehicle.ship]
        = [Msg.tracklineComplete Vehicle.ship 0] ∧
    Msg.tracklineComplete Vehicle.ship 0
        ∈ processVehicles (fun _ => Except.ok []) 1000 1000 [Vehicle.ship] := by
  refine ⟨le_refl _, rfl, ?_⟩
  rw [(rfl : processVehicles (fun _ => Except.ok []) 1000 1000 [Vehicle.ship]
      = [Msg.tracklineComplete Vehicle.ship 0])]
  exact List.mem_singleton.mpr rfl

/-- C2 amended: the handler performs no range validation at all: a request
with end at or before start is processed like any other; the query runs
for every requested vehicle and, with the empty series an empty range
yields, every vehicle receives a completion message with totalPoints 0 and
no error message is produced. -/
theorem no_range_validation (startTime endTime : Int) (hrange : endTime ≤ startTime)
    (vehicles : List Vehicle) :
    processVehicles (fun _ => Except.ok []) startTime endTime vehicles
      = vehicles.map (fun v => Msg.tracklineComplete v 0) := by
  induction vehicles with
  | nil => rfl
  | cons v rest ih =>
    unfold processVehicles
    rw [ih, List.map_cons]
    rfl

/-- C2 witness: the amended no-validation behavior instantiated at a
start-equals-end request for both vehicles. -/
theorem no_range_validation_witness :
    (1000 : Int) ≤ 1000 ∧
    processVehicles (fun _ => Except.ok []) 1000 1000 [Vehicle.ship, Vehicle.rov]
      = [Vehicle.ship, Vehicle.rov].map (fun v => Msg.tracklineComplete v 0) :=
  ⟨le_refl _, no_range_validation 1000 1000 (le_refl _) [Vehicle.ship, Vehicle.rov]⟩

/-- C3 counterexample: with two requested vehicles where the first vehicle's
range query fails, the handler emits only the single error message: the
second vehicle is never queried and receives neither chunks nor a
completion, contradicting the claim that siblings are still processed. -/
theorem sibling_abort_cex :
    processVehicles
        (fun v => match v with
          | Vehicle.ship => Except.error ("query failed")
          | Vehicle.rov => Except.ok [⟨0, 1, 2, none⟩])
        0 1 [Vehicle.ship, Vehicle.rov]
      = [Msg.errorMsg ("query failed")] ∧
    (∀ n, Msg.tracklineComplete Vehicle.rov n
        ∉ processVehicles
            (fun v => match v with
              | Vehicle.ship => Except.error ("query failed")
              | Vehicle.rov => Except.ok [⟨0, 1, 2, none⟩])
            0 1 [Vehicle.ship, Vehicle.rov]) := by
  refine ⟨rfl, ?_⟩
  intro n hn
  rw [(rfl : processVehicles
      (fun v => match v with
        | Vehicle.ship => Except.error ("query failed")
        | Vehicle.rov => Except.ok [⟨0, 1, 2, none⟩])
      0 1 [Vehicle.ship, Vehicle.rov] = [Msg.errorMsg ("query failed")])] at hn
  rcases List.mem_singleton.mp hn with h
  cases h

/-- C3 amended: when the range query of a vehicle fails, the catch sends one
error message and the handler stops: no vehicle after the failing one in
the same request is processed, so a query failure for one target aborts
its remaining siblings. -/
theorem error_aborts_remaining (query : Vehicle → Except String (List TrackPoint))
    (st en : Int) (v : Vehicle) (e : String) (rest : List Vehicle)
    (hq : query v = Except.error e) :
    processVehicles query st en (v :: rest) = [Msg.errorMsg e] := by
  unfold processVehicles
  rw [hq]

/-- C3 witness: the abort behavior instantiated at a concrete two-vehicle
request whose first query fails. -/
theorem error_aborts_remaining_witness :
    processVehicles (fun _ => Except.error ("boom")) 0 1 [Vehicle.ship, Vehicle.rov]
      = [Msg.errorMsg ("boom")] :=
  error_aborts_remaining (fun _ => Except.error ("boom")) 0 1 Vehicle.ship
    ("boom") [Vehicle.rov] rfl

/-- the unit rounding of the window never shrinks it. -/
theorem windowPeriodMs_ge (w : Nat) : w ≤ windowPeriodMs w := by
  unfold windowPeriodMs
  split_ifs <;> omega

/-- the unit rounding of the window is monotone, including across the
second/minute/hour boundaries. -/
theorem windowPeriodMs_mono {w1 w2 : Nat} (h : w1 ≤ w2) :
    windowPeriodMs w1 ≤ windowPeriodMs w2 := by
  unfold windowPeriodMs
  split_ifs <;> omega

/-- C6 counterexample: the code computes the window with floor, not ceiling:
at a span of 3000001 ms the specification's formula gives 1001 ms where the
code gives 1000 ms; and the 3000-bucket target is exceeded: a span of
3001000 ms gets a 1-second window and hence 3001 aggregation buckets. -/
theorem window_formula_cex :
    windowMsOf 3000001 = 1000 ∧
    specWindowMs 3000001 = 1001 ∧
    windowMsOf 3000001 ≠ specWindowMs 3000001 ∧
    windowPeriodMs (windowMsOf 3001000) = 1000 ∧
    bucketCount 3001000 (windowPeriodMs (windowMsOf 3001000)) = 3001 ∧
    3000 < bucketCount 3001000 (windowPeriodMs (windowMsOf 3001000)) := by
  refine ⟨rfl, rfl, by decide, rfl, rfl, by decide⟩

/-- C6 amended: for every range with end after start, the window is
max(1 s, floor(span / 3000)) in milliseconds, the rounding to a whole unit
of seconds, minutes or hours never shrinks it, and the resulting number of
aggregation buckets over the span can exceed the 3000-point target only by
the floor and rounding slack: it never exceeds 3003. -/
theorem window_floor_bound (startMs endMs : Int) (h : startMs < endMs) :
    windowMsOf (endMs - startMs).toNat
        = max 1000 ((endMs - startMs).toNat / targetPoints) ∧
    windowMsOf (endMs - startMs).toNat
        ≤ windowPeriodMs (windowMsOf (endMs - startMs).toNat) ∧
    bucketCount (endMs - startMs).toNat
        (windowPeriodMs (windowMsOf (endMs - startMs).toNat)) ≤ 3003 := by
  refine ⟨rfl, windowPeriodMs_ge _, ?_⟩
  set d : Nat := (endMs - startMs).toNat with hd
  set w : Nat := windowMsOf d with hw
  set p : Nat := windowPeriodMs w with hp
  have hw1000 : 1000 ≤ w := by
    rw [hw]
    unfold windowMsOf
    exact Nat.le_max_left _ _
  have hwp : w ≤ p := hp ▸ windowPeriodMs_ge w
  have hdw : d ≤ 3003 * w := by
    rw [hw]
    unfold windowMsOf targetPoints
    rcases Nat.le_total (d / 3000) 1000 with hcase | hcase
    · have hmod := Nat.div_add_mod d 3000
      have hlt : d % 3000 < 3000 := Nat.mod_lt _ (by decide)
      omega
    · have hmax : max 1000 (d / 3000) = d / 3000 := Nat.max_eq_right hcase
      rw [hmax]
      have hmod := Nat.div_add_mod d 3000
      have hlt : d % 3000 < 3000 := Nat.mod_lt _ (by decide)
      omega
  have hdp : d ≤ 3003 * p := le_trans hdw (Nat.mul_le_mul_left _ hwp)
  have hppos : 0 < p := lt_of_lt_of_le (by omega : (0 : Nat) < w) hwp
  unfold bucketCount
  rw [Nat.div_le_iff_le_mul_add_pred hppos]
  calc d + p - 1 ≤ 3003 * p + p - 1 := by omega
    _ ≤ p * 3003 + (p - 1) := by
        rw [Nat.mul_comm]
        omega

/-- C6 witness: the amended window bound instantiated at the span that
maximally overshoots the target: 3001 buckets, still at most 3003. -/
theorem window_floor_bound_witness :
    (0 : Int) < 3001000 ∧
    (windowMsOf ((3001000 : Int) - 0).toNat
        = max 1000 (((3001000 : Int) - 0).toNat / targetPoints) ∧
    windowMsOf ((3001000 : Int) - 0).toNat
        ≤ windowPeriodMs (windowMsOf ((3001000 : Int) - 0).toNat) ∧
    bucketCount ((3001000 : Int) - 0).toNat
        (windowPeriodMs (windowMsOf ((3001000 : Int) - 0).toNat)) ≤ 3003) :=
  ⟨by decide, window_floor_bound 0 3001000 (by decide)⟩

/-- C7: both resolution policies choose a bucket width that is monotonically
non-decreasing in the requested span: the auto threshold table of the GPS
trackline query, and the floor-then-round window of the oceanographic
query, including across its second/minute/hour rounding boundaries. -/
theorem resolution_monotone (s1 e1 s2 e2 : Int)
    (h1 : s1 < e1) (h2 : s2 < e2) (hspan : e1 - s1 ≤ e2 - s2) :
    autoIntervalMs s1 e1 ≤ autoIntervalMs s2 e2 ∧
    windowPeriodMs (windowMsOf (e1 - s1).toNat)
      ≤ windowPeriodMs (windowMsOf (e2 - s2).toNat) := by
  constructor
  · unfold autoIntervalMs
    simp only []
    split_ifs <;> omega
  · refine windowPeriodMs_mono ?_
    unfold windowMsOf
    have hle : (e1 - s1).toNat ≤ (e2 - s2).toNat := Int.toNat_le_toNat hspan
    exact max_le_max (le_refl _) (Nat.div_le_div_right hle)

/-- C7 witness: monotonicity instantiated at a one-hour span against a
ten-day span, crossing both policy boundaries. -/
theorem resolution_monotone_witness :
    (0 : Int) < 3600000 ∧ (0 : Int) < 864000000 ∧
    ((3600000 : Int) - 0 ≤ (864000000 : Int) - 0) ∧
    (autoIntervalMs 0 3600000 ≤ autoIntervalMs 0 864000000 ∧
    windowPeriodMs (windowMsOf ((3600000 : Int) - 0).toNat)
      ≤ windowPeriodMs (windowMsOf ((864000000 : Int) - 0).toNat)) :=
  ⟨by decide, by decide, by decide,
    resolution_monotone 0 3600000 0 864000000 (by decide) (by decide) (by decide)⟩

end MapViewer
